import Mathlib

/-!
Shallow embedding of `src/main.rs` of the matricks repository: a generic
dense matrix type with construction (`zeroes`, `ones`, `new`), box-drawn
formatting (`fmt::Display::fmt`), elementwise addition (`Add::add`),
linear-algebra multiplication (`Mul::mul`, left as an unfinished stub in the
source), and Hadamard multiplication (`hadamard`).

Rust panics (the `assert!` macros and out-of-range indexing/slicing) are
modelled as `Except MatrixError` / `Option` failures.  The generic element
type `T : Default (+ Add / Mul)` is modelled as a type parameter `α`
together with an `Inhabited` instance (for `Default::default`) and explicit
binary operations where the source's trait bounds require them.  The
source's `f64` element type of `zeroes`/`ones` is modelled by `ℚ`: no claim
settled here depends on floating-point evaluation, only on the literals
`0` and `1` and the buffer shape.
-/

namespace Matricks

/-- Failure modes of the operations: `ShapeOverflow` is the `assert!` panic of
`Matrix::new`, `DimensionMismatch` the `assert!` panics of `add`, `mul` and
`hadamard`, `IndexOutOfRange` an out-of-range `Vec` index panic. -/
inductive MatrixError where
  | ShapeOverflow
  | DimensionMismatch
  | IndexOutOfRange
  deriving DecidableEq

/-- The type `struct Matrix<T: Default> { rows: usize, columns: usize, contents: Vec<T> }`.
Row-major: element (r, c) lives at flat index `r * columns + c`. -/
structure Matrix (α : Type) where
  rows : Nat
  columns : Nat
  contents : List α
  deriving DecidableEq

/-- The constructor `Matrix::zeroes`: `vec![0f64; rows * columns]` with the given shape. -/
def zeroes (rows columns : Nat) : Matrix ℚ :=
  ⟨rows, columns, List.replicate (rows * columns) 0⟩

/-- The constructor `Matrix::ones`: `vec![1f64; rows * columns]` with the given shape. -/
def ones (rows columns : Nat) : Matrix ℚ :=
  ⟨rows, columns, List.replicate (rows * columns) 1⟩

/-- The constructor `Matrix::new(rows, columns, elements)` (the spec's
`from_elements`): panics (`ShapeOverflow`) when
`elements.len() > rows * columns`; otherwise
`elements.resize_with(rows * columns, Default::default)` pads the end of the
buffer with `T::default()` up to length `rows * columns`. -/
def Matrix.new {α : Type} [Inhabited α] (rows columns : Nat) (elements : List α) :
    Except MatrixError (Matrix α) :=
  if elements.length ≤ rows * columns then
    .ok ⟨rows, columns, elements ++ List.replicate (rows * columns - elements.length) default⟩
  else
    .error .ShapeOverflow

/-- The operation `ops::Add for Matrix<T>`: asserts equal shapes (`DimensionMismatch`), then
for `i in 0..self.contents.len()` pushes `self.contents[i] + o.contents[i]`.
The index `o.contents[i]` panics when `o.contents` is shorter than
`self.contents` (impossible while both operands satisfy the shape invariant);
when it is not, the loop builds exactly
`List.zipWith addOp self.contents o.contents`. -/
def Matrix.add {α : Type} (addOp : α → α → α) (a o : Matrix α) :
    Except MatrixError (Matrix α) :=
  if a.columns = o.columns ∧ a.rows = o.rows then
    if a.contents.length ≤ o.contents.length then
      .ok ⟨a.rows, a.columns, List.zipWith addOp a.contents o.contents⟩
    else
      .error .IndexOutOfRange
  else
    .error .DimensionMismatch

/-- The operation `ops::Mul for Matrix<T>`: asserts `self.columns == o.rows`
(`DimensionMismatch`), then loops `i in 0..self.contents.len()` — but the loop
body is the unfinished stub `result.push(); //TODO: make this work` (it does
not even compile as written), so nothing is ever pushed: the returned matrix
has shape `(self.rows, o.columns)` and an empty `contents` buffer. -/
def Matrix.mul {α : Type} (a o : Matrix α) : Except MatrixError (Matrix α) :=
  if a.columns = o.rows then
    .ok ⟨a.rows, o.columns, []⟩
  else
    .error .DimensionMismatch

/-- The operation `Matrix::hadamard` (the source's impl header drops the `Matrix<T>` after
`for`, a typo; the body is complete): asserts equal shapes
(`DimensionMismatch`), then for `i in 0..self.contents.len()` pushes
`self.contents[i] * o.contents[i]`, exactly as `add` with `*`. -/
def Matrix.hadamard {α : Type} (mulOp : α → α → α) (a o : Matrix α) :
    Except MatrixError (Matrix α) :=
  if a.columns = o.columns ∧ a.rows = o.rows then
    if a.contents.length ≤ o.contents.length then
      .ok ⟨a.rows, a.columns, List.zipWith mulOp a.contents o.contents⟩
    else
      .error .IndexOutOfRange
  else
    .error .DimensionMismatch

/-- The Rust expression `" ".repeat(n)`. -/
def spacesRun (n : Nat) : String :=
  String.mk (List.replicate n ' ')

/-- The cell builder `format!("{:>width$} ", *e, width = longest)`: right-justify (left-pad
with spaces) to width `longest`, then one trailing space.  Rust's `fmt` width
counts chars of the rendered string. -/
def cellOf (longest : Nat) (s : String) : String :=
  spacesRun (longest - s.length) ++ s ++ " "

/-- The Rust slice `&v[a .. b]`: panics (`none`) unless `a ≤ b ≤ v.len()`. -/
def sliceRange {α : Type} (v : List α) (a b : Nat) : Option (List α) :=
  if a ≤ b ∧ b ≤ v.length then some ((v.drop a).take (b - a)) else none

/-- The lines built by `fmt::Display::fmt` for `Matrix<T>`, before the final
`join("\n")`: `longest` is the fold of the first loop (`e.to_string().len()`,
UTF-8 byte length, starting from 0), `cells` the padded `string_reps`, and
line `i` of `0..rows+2` is the top border (`i == 0`), the bottom border
(`i == rows + 1`), or `"│ "` ++ the joined slice
`string_reps[(i-1)*columns .. i*columns]` ++ `"│"`; the slice can in
principle panic (`none`). -/
def Matrix.fmtLines {α : Type} (toStr : α → String) (m : Matrix α) :
    Option (List String) :=
  let reps := m.contents.map toStr
  let longest := reps.foldl (fun acc s => max acc s.utf8ByteSize) 0
  let cells := reps.map (cellOf longest)
  (List.range (m.rows + 2)).mapM (fun i =>
    if i = 0 then
      some ("┌ " ++ spacesRun ((longest + 1) * m.columns) ++ "┐")
    else if i = m.rows + 1 then
      some ("└ " ++ spacesRun ((longest + 1) * m.columns) ++ "┘")
    else
      (sliceRange cells ((i - 1) * m.columns) (i * m.columns)).map
        (fun cs => "│ " ++ String.join cs ++ "│"))

/-- The full `fmt::Display::fmt` output: the lines joined by `"\n"` (no trailing newline). -/
def Matrix.fmt {α : Type} (toStr : α → String) (m : Matrix α) : Option String :=
  (m.fmtLines toStr).map (String.intercalate "\n")

end Matricks

namespace Matricks

/-- Claim C1 (failing input for the invariant): the source's unfinished
multiplication body produces a matrix violating the shape invariant
`contents.length = rows * columns`: multiplying the 1×1 matrix `[2]` by the
1×1 matrix `[3]` succeeds but returns rows = columns = 1 with an empty
contents buffer, `0 ≠ 1 * 1`.  (The constructions and the completed
elementwise operations do preserve the invariant; the stubbed `Mul::mul`
is the violation.) -/
theorem mul_stub_breaks_shape_invariant :
    ∃ m : Matrix ℚ, Matrix.mul ⟨1, 1, [2]⟩ ⟨1, 1, [3]⟩ = .ok m ∧
      m.contents.length ≠ m.rows * m.columns :=
  ⟨⟨1, 1, []⟩, rfl, by decide⟩

/-- Claim C2 (failing input): with inner dimensions agreeing (1 = 1),
multiplication succeeds but returns an empty contents buffer instead of the
dot product `[2 * 3]`: the loop body of `Mul::mul` is the unfinished stub
`result.push(); //TODO: make this work`, which pushes nothing. -/
theorem mul_stub_no_dot_product :
    Matrix.mul (⟨1, 1, [2]⟩ : Matrix ℚ) ⟨1, 1, [3]⟩ = .ok ⟨1, 1, []⟩ ∧
      (⟨1, 1, []⟩ : Matrix ℚ).contents ≠ [2 * 3] :=
  ⟨rfl, by decide⟩

/-- Claim C4: `from_elements` (`Matrix::new`) fails — and the failure is
`ShapeOverflow` — exactly when `elements.length > rows * columns`; otherwise
it returns a matrix. -/
theorem new_shape_overflow_iff {α : Type} [Inhabited α] (rows columns : Nat)
    (elements : List α) :
    (Matrix.new rows columns elements = .error .ShapeOverflow ↔
      rows * columns < elements.length) ∧
    ((∃ m, Matrix.new rows columns elements = .ok m) ↔
      elements.length ≤ rows * columns) := by
  unfold Matrix.new
  by_cases h : elements.length ≤ rows * columns
  · simp [h, Nat.not_lt.mpr h]
  · simp [h, Nat.lt_of_not_le h]

/-- Claim C10: when exactly `rows * columns` elements are supplied,
`Matrix::new` succeeds and the contents are those elements, unpadded and
untruncated. -/
theorem new_exact_fit {α : Type} [Inhabited α] (rows columns : Nat) (e : List α)
    (h : e.length = rows * columns) :
    Matrix.new rows columns e = .ok ⟨rows, columns, e⟩ := by
  unfold Matrix.new
  rw [if_pos (Nat.le_of_eq h)]
  simp [h, Nat.sub_self]

/-- Witness for C10 at rows = 2, columns = 1, e = [4, 5]. -/
theorem new_exact_fit_filled :
    Matrix.new 2 1 [(4 : ℚ), 5] = .ok ⟨2, 1, [4, 5]⟩ :=
  new_exact_fit 2 1 [(4 : ℚ), 5] (by decide)

/-- Claim C5: with fewer than `rows * columns` elements, `Matrix::new`
succeeds; the first `e.length` contents are `e` in order, the rest are
`rows * columns - e.length` copies of the default value. -/
theorem new_padding {α : Type} [Inhabited α] (rows columns : Nat) (e : List α)
    (h : e.length < rows * columns) :
    ∃ m, Matrix.new rows columns e = .ok m ∧
      m.contents.take e.length = e ∧
      m.contents.drop e.length =
        List.replicate (rows * columns - e.length) (default : α) := by
  refine ⟨⟨rows, columns,
    e ++ List.replicate (rows * columns - e.length) default⟩, ?_, ?_, ?_⟩
  · unfold Matrix.new
    rw [if_pos (Nat.le_of_lt h)]
  · exact List.take_left e _
  · exact List.drop_left e _

/-- Witness for C5 at rows = 2, columns = 2, e = [7, 9]. -/
theorem new_padding_filled :
    ∃ m, Matrix.new 2 2 [(7 : ℚ), 9] = .ok m ∧
      m.contents.take [(7 : ℚ), 9].length = [(7 : ℚ), 9] ∧
      m.contents.drop [(7 : ℚ), 9].length =
        List.replicate (2 * 2 - [(7 : ℚ), 9].length) (default : ℚ) :=
  new_padding 2 2 [(7 : ℚ), 9] (by decide)

end Matricks

namespace Matricks

/-- Helper: `hadamard` has, element operation aside, literally the same body
as `add` (same shape assert, same index loop). -/
theorem hadamard_eq_add {α : Type} (f : α → α → α) :
    Matrix.hadamard f = Matrix.add f := rfl

/-- Helper: `add` succeeds exactly on equal shapes, given operands satisfying
the shape invariant. -/
theorem add_ok_iff {α : Type} (f : α → α → α) (a b : Matrix α)
    (ha : a.contents.length = a.rows * a.columns)
    (hb : b.contents.length = b.rows * b.columns) :
    (∃ m, Matrix.add f a b = .ok m) ↔ (a.rows = b.rows ∧ a.columns = b.columns) := by
  by_cases h1 : a.rows = b.rows
  · by_cases h2 : a.columns = b.columns
    · have hle : a.contents.length ≤ b.contents.length := by rw [ha, hb, h1, h2]
      simp [Matrix.add, h1, h2, hle]
    · simp [Matrix.add, h2]
  · simp [Matrix.add, h1]

/-- Helper: `add` reports `DimensionMismatch` exactly on unequal shapes, given
operands satisfying the shape invariant. -/
theorem add_err_iff {α : Type} (f : α → α → α) (a b : Matrix α)
    (ha : a.contents.length = a.rows * a.columns)
    (hb : b.contents.length = b.rows * b.columns) :
    (Matrix.add f a b = .error .DimensionMismatch ↔
      ¬(a.rows = b.rows ∧ a.columns = b.columns)) := by
  by_cases h1 : a.rows = b.rows
  · by_cases h2 : a.columns = b.columns
    · have hle : a.contents.length ≤ b.contents.length := by rw [ha, hb, h1, h2]
      simp [Matrix.add, h1, h2, hle]
    · simp [Matrix.add, h1, h2]
  · simp [Matrix.add, h1]

/-- Helper: `mul` succeeds exactly when the inner dimensions agree. -/
theorem mul_ok_iff {α : Type} (a b : Matrix α) :
    (∃ m, Matrix.mul a b = .ok m) ↔ a.columns = b.rows := by
  by_cases h : a.columns = b.rows <;> simp [Matrix.mul, h]

/-- Helper: `mul` reports `DimensionMismatch` exactly when the inner
dimensions disagree. -/
theorem mul_err_iff {α : Type} (a b : Matrix α) :
    (Matrix.mul a b = .error .DimensionMismatch ↔ ¬a.columns = b.rows) := by
  by_cases h : a.columns = b.rows <;> simp [Matrix.mul, h]

/-- Claim C3: for operands satisfying the shape invariant, `add` and
`hadamard` fail — and the failure is `DimensionMismatch` — exactly when the
operand shapes differ, `mul` exactly when the left operand's columns differ
from the right operand's rows; on failure no matrix is produced (the `ok`
and `error` cases are exclusive by the `Except` type). -/
theorem arithmetic_fails_iff_dimension_mismatch {α : Type}
    (addOp mulOp : α → α → α) (a b : Matrix α)
    (ha : a.contents.length = a.rows * a.columns)
    (hb : b.contents.length = b.rows * b.columns) :
    ((∃ m, Matrix.add addOp a b = .ok m) ↔ (a.rows = b.rows ∧ a.columns = b.columns)) ∧
    (Matrix.add addOp a b = .error .DimensionMismatch ↔
      ¬(a.rows = b.rows ∧ a.columns = b.columns)) ∧
    ((∃ m, Matrix.hadamard mulOp a b = .ok m) ↔
      (a.rows = b.rows ∧ a.columns = b.columns)) ∧
    (Matrix.hadamard mulOp a b = .error .DimensionMismatch ↔
      ¬(a.rows = b.rows ∧ a.columns = b.columns)) ∧
    ((∃ m, Matrix.mul a b = .ok m) ↔ a.columns = b.rows) ∧
    (Matrix.mul a b = .error .DimensionMismatch ↔ ¬a.columns = b.rows) :=
  ⟨add_ok_iff addOp a b ha hb, add_err_iff addOp a b ha hb,
   add_ok_iff mulOp a b ha hb, add_err_iff mulOp a b ha hb,
   mul_ok_iff a b, mul_err_iff a b⟩

/-- Witness for C3: on (2,3) and (2,3) operands, `add` succeeds and `mul` is a
`DimensionMismatch` (inner dimensions 3 ≠ 2). -/
theorem arithmetic_fails_iff_dimension_mismatch_filled :
    (∃ m : Matrix ℚ,
      Matrix.add (fun x y => x + y) ⟨2, 3, [0, 0, 0, 0, 0, 0]⟩
        ⟨2, 3, [1, 1, 1, 1, 1, 1]⟩ = .ok m) ∧
    Matrix.mul (⟨2, 3, [0, 0, 0, 0, 0, 0]⟩ : Matrix ℚ)
      ⟨2, 3, [1, 1, 1, 1, 1, 1]⟩ = .error .DimensionMismatch :=
  ⟨(arithmetic_fails_iff_dimension_mismatch (fun x y => x + y) (fun x y => x * y)
      ⟨2, 3, [0, 0, 0, 0, 0, 0]⟩ ⟨2, 3, [1, 1, 1, 1, 1, 1]⟩
      (by decide) (by decide)).1.mpr ⟨rfl, rfl⟩,
   (arithmetic_fails_iff_dimension_mismatch (fun x y => x + y) (fun x y => x * y)
      ⟨2, 3, [0, 0, 0, 0, 0, 0]⟩ ⟨2, 3, [1, 1, 1, 1, 1, 1]⟩
      (by decide) (by decide)).2.2.2.2.2.mpr (by decide)⟩

/-- Claim C6: on same-shape operands satisfying the shape invariant, `add`
succeeds with a matrix of the same shape whose flat element `i` is the sum of
the operands' flat elements `i`. -/
theorem add_pairwise_sum {α : Type} (addOp : α → α → α) (a b : Matrix α)
    (ha : a.contents.length = a.rows * a.columns)
    (hb : b.contents.length = b.rows * b.columns)
    (hr : a.rows = b.rows) (hc : a.columns = b.columns) :
    ∃ m, Matrix.add addOp a b = .ok m ∧ m.rows = a.rows ∧ m.columns = a.columns ∧
      m.contents.length = a.contents.length ∧
      ∀ (i : Nat) (him : i < m.contents.length) (hia : i < a.contents.length)
        (hib : i < b.contents.length),
        m.contents.get ⟨i, him⟩ =
          addOp (a.contents.get ⟨i, hia⟩) (b.contents.get ⟨i, hib⟩) := by
  have hle : a.contents.length ≤ b.contents.length := by rw [ha, hb, hr, hc]
  refine ⟨⟨a.rows, a.columns, List.zipWith addOp a.contents b.contents⟩,
    ?_, rfl, rfl, ?_, ?_⟩
  · unfold Matrix.add
    rw [if_pos ⟨hc, hr⟩, if_pos hle]
  · simp only [List.length_zipWith]
    exact min_eq_left hle
  · intro i him hia hib
    simp [List.get_eq_getElem, List.getElem_zipWith]

/-- Witness for C6 on the 1×1 matrices `[2]` and `[3]`. -/
theorem add_pairwise_sum_filled :
    ∃ m, Matrix.add (fun x y : ℚ => x + y) ⟨1, 1, [2]⟩ ⟨1, 1, [3]⟩ = .ok m ∧
      m.rows = (⟨1, 1, [2]⟩ : Matrix ℚ).rows ∧
      m.columns = (⟨1, 1, [2]⟩ : Matrix ℚ).columns ∧
      m.contents.length = (⟨1, 1, [2]⟩ : Matrix ℚ).contents.length ∧
      ∀ (i : Nat) (him : i < m.contents.length)
        (hia : i < (⟨1, 1, [2]⟩ : Matrix ℚ).contents.length)
        (hib : i < (⟨1, 1, [3]⟩ : Matrix ℚ).contents.length),
        m.contents.get ⟨i, him⟩ =
          (fun x y : ℚ => x + y) ((⟨1, 1, [2]⟩ : Matrix ℚ).contents.get ⟨i, hia⟩)
            ((⟨1, 1, [3]⟩ : Matrix ℚ).contents.get ⟨i, hib⟩) :=
  add_pairwise_sum (fun x y : ℚ => x + y) ⟨1, 1, [2]⟩ ⟨1, 1, [3]⟩
    (by decide) (by decide) rfl rfl

end Matricks

namespace Matricks

/-- Claim C7 (counterexample): the claimed golden output renders the top and
bottom borders with four spaces between the corner glyphs (`"┌    ┐"`), but
the program emits `"┌ "` (corner plus one space) followed by the
`(longest + 1) * columns = 4`-space run, i.e. five spaces between the
corners. -/
theorem fmt_two_by_two_claimed_output_wrong :
    Matrix.fmt toString (⟨2, 2, [(1 : Nat), 2, 3, 4]⟩ : Matrix Nat) ≠
      some ("┌    ┐" ++ "\n" ++ "│ 1 2 │" ++ "\n" ++ "│ 3 4 │" ++ "\n" ++
        "└    ┘") := by
  decide

/-- Claim C7 (amended): formatting `from_elements(2, 2, [1, 2, 3, 4])` with
integer elements of rendered width 1 produces exactly the four lines
`"┌     ┐"`, `"│ 1 2 │"`, `"│ 3 4 │"`, `"└     ┘"` joined by newlines with no
trailing newline: each border is the corner glyph and one literal space,
then a run of `(longest_cell_width + 1) * columns = 4` spaces, then the
closing corner. -/
theorem fmt_two_by_two_golden :
    Matrix.new 2 2 [(1 : Nat), 2, 3, 4] = .ok ⟨2, 2, [1, 2, 3, 4]⟩ ∧
    Matrix.fmt toString (⟨2, 2, [(1 : Nat), 2, 3, 4]⟩ : Matrix Nat) =
      some ("┌     ┐" ++ "\n" ++ "│ 1 2 │" ++ "\n" ++ "│ 3 4 │" ++ "\n" ++
        "└     ┘") ∧
    "┌     ┐" = "┌ " ++ spacesRun ((1 + 1) * 2) ++ "┐" :=
  ⟨rfl, rfl, rfl⟩

/-- Helper: a `mapM` over the `Option` monad that succeeds pointwise succeeds
as a whole, returning the pointwise values. -/
theorem mapM_option_eq_map {α β : Type} (f : α → Option β) (g : α → β)
    (l : List α) (h : ∀ x ∈ l, f x = some (g x)) :
    l.mapM f = some (l.map g) := by
  induction l with
  | nil => rfl
  | cons x xs ih =>
    rw [List.mapM_cons, h x (List.mem_cons_self x xs),
      ih (fun y hy => h y (List.mem_cons_of_mem x hy))]
    rfl

/-- Claim C9: formatting an empty matrix (zero rows or zero columns, with the
shape invariant) never hits an out-of-range slice: every line is produced,
there are `rows + 2` of them, and the first and last are well-formed
(possibly zero-interior) borders. -/
theorem fmt_empty_matrix_safe {α : Type} (toStr : α → String) (m : Matrix α)
    (hinv : m.contents.length = m.rows * m.columns)
    (hempty : m.rows = 0 ∨ m.columns = 0) :
    ∃ ls, m.fmtLines toStr = some ls ∧
      m.fmt toStr = some (String.intercalate "\n" ls) ∧
      ls.length = m.rows + 2 ∧
      ls.head? = some ("┌ " ++ spacesRun m.columns ++ "┐") ∧
      ls.getLast? = some ("└ " ++ spacesRun m.columns ++ "┘") := by
  have hlen0 : m.contents.length = 0 := by
    rcases hempty with h | h <;> rw [hinv, h] <;> simp
  have hl : m.contents = [] := List.eq_nil_of_length_eq_zero hlen0
  have hfmt : m.fmtLines toStr = some ((List.range (m.rows + 2)).map (fun i =>
      if i = 0 then "┌ " ++ spacesRun m.columns ++ "┐"
      else if i = m.rows + 1 then "└ " ++ spacesRun m.columns ++ "┘"
      else "│ │")) := by
    simp only [Matrix.fmtLines, hl, List.map_nil, List.foldl_nil]
    apply mapM_option_eq_map
    intro i hi
    rw [List.mem_range] at hi
    by_cases h0 : i = 0
    · simp [h0]
    · by_cases h1 : i = m.rows + 1
      · simp [h0, h1]
      · rcases hempty with h | h
        · omega
        · simp only [h0, h1, if_false, h, Nat.mul_zero, sliceRange]
          simp [String.join]
  refine ⟨_, hfmt, ?_, ?_, ?_, ?_⟩
  · simp [Matrix.fmt, hfmt]
  · simp
  · rw [List.range_succ_eq_map]
    simp
  · have h2 : m.rows + 2 = (m.rows + 1) + 1 := rfl
    rw [h2, List.range_succ, List.map_append]
    simp [List.getLast?_concat]

/-- Witness for C9 on the empty 0×3 matrix. -/
theorem fmt_empty_matrix_safe_filled :
    ∃ ls, Matrix.fmtLines toString (⟨0, 3, ([] : List ℚ)⟩ : Matrix ℚ) = some ls ∧
      Matrix.fmt toString (⟨0, 3, ([] : List ℚ)⟩ : Matrix ℚ) =
        some (String.intercalate "\n" ls) ∧
      ls.length = (⟨0, 3, ([] : List ℚ)⟩ : Matrix ℚ).rows + 2 ∧
      ls.head? =
        some ("┌ " ++ spacesRun (⟨0, 3, ([] : List ℚ)⟩ : Matrix ℚ).columns ++ "┐") ∧
      ls.getLast? =
        some ("└ " ++ spacesRun (⟨0, 3, ([] : List ℚ)⟩ : Matrix ℚ).columns ++ "┘") :=
  fmt_empty_matrix_safe toString ⟨0, 3, []⟩ rfl (Or.inl rfl)

end Matricks
